import Mathlib

/-!
Shallow embedding of the MacroPad Mini firmware (`src/3keys_1knob.c`):
the keymap data model, the key-action dispatcher (`get_type`,
`parse_type`, `mod_type`), the layer state machine (`parse_layer`),
the NeoPixel fade (`safe_fade`, `fade_out`), the quadrature decoder
poll step of `main`, the chord-release resolution of `main`, and the
startup EEPROM decode loop of `main`.

Bytes are modelled as `ℕ` (the C code never overflows `uint8_t` in the
embedded fragments except where noted); the signed 8-bit
`encoder_value` is modelled as `Int` with an explicit wrap at the
points where the C code stores back into an `int8_t`.
-/

namespace MacroPad

/-- The `enum Event` of the firmware. -/
inductive Event where
  | NONE
  | KEY1
  | KEY2
  | KEY3
  | ENC_SW
  | ENC_CW
  | ENC_CCW
  | KEY12
  | KEY23
  | KEY13
  | ENC_SW_CW
  | ENC_SW_CCW
deriving DecidableEq, Repr

/-- `struct RGB`: one 8-bit channel triple. -/
structure RGB where
  r : ℕ
  g : ℕ
  b : ℕ
deriving DecidableEq, Repr

/-- `struct Chars`: the 22 per-layer binding bytes, in source order. -/
structure Chars where
  mod1 : ℕ
  char1 : ℕ
  mod2 : ℕ
  char2 : ℕ
  mod3 : ℕ
  char3 : ℕ
  modSW : ℕ
  charSW : ℕ
  modCW : ℕ
  charCW : ℕ
  modCCW : ℕ
  charCCW : ℕ
  mod12 : ℕ
  char12 : ℕ
  mod23 : ℕ
  char23 : ℕ
  mod13 : ℕ
  char13 : ℕ
  swcharCW : ℕ
  swcharCCW : ℕ
  swmodCW : ℕ
  swmodCCW : ℕ
deriving DecidableEq, Repr

/-- An all-zero `Chars` record (the EEPROM-erased state). -/
def charsZero : Chars :=
  ⟨0, 0, 0, 0, 0, 0, 0, 0, 0, 0, 0, 0, 0, 0, 0, 0, 0, 0, 0, 0, 0, 0⟩

/-- `safe_fade(from, by, min)` from the source, line by line:
`if (from <= min) return min; if (from < by) return min; from -= by;
if (by < min) return min; return from;`. -/
def safe_fade (v f mn : ℕ) : ℕ :=
  if v ≤ mn then mn
  else if v < f then mn
  else
    let v2 := v - f
    if f < mn then mn else v2

/-- One `fade_out` step on a single pixel: each channel of the live
color fades by the layer fade rate toward the layer background. -/
def fade_out_pixel (c fade bg : RGB) : RGB :=
  ⟨safe_fade c.r fade.r bg.r, safe_fade c.g fade.g bg.g, safe_fade c.b fade.b bg.b⟩

/-- `parse_layer(dir)` acting on the globals `(max_layer, layer)`;
returns the updated pair.  `layer` is a `uint8_t`, so the
`layer += dir` in the `max_layer == 3` arm wraps modulo 256 before the
range corrections run. -/
def parse_layer (max_layer layer : ℕ) (dir : Int) : ℕ × ℕ :=
  let ml := if max_layer > 3 then 3 else max_layer
  if dir = 0 then (ml, 0)
  else
    match ml with
    | 0 => (ml, 0)
    | 1 => (ml, 3)
    | 2 =>
      if dir > 0 then (ml, 2)
      else if dir < 0 then (ml, 3)
      else (ml, layer)
    | 3 =>
      let l1 := (((layer : Int) + dir) % 256).toNat
      let l2 := if l1 > 3 then 1 else l1
      let l3 := if l2 < 1 then 3 else l2
      (ml, l3)
    | _ => (ml, layer)

/-- The modifier keys pressed and released by `mod_type`
(`KBD_KEY_LEFT_CTRL` … `KBD_KEY_RIGHT_GUI`). -/
inductive MKey where
  | LCTRL
  | LSHIFT
  | LALT
  | LGUI
  | RCTRL
  | RSHIFT
  | RALT
  | RGUI
deriving DecidableEq, Repr

/-- One observable HID action emitted by the dispatcher:
`KBD_press`, `KBD_release`, `KBD_type`, or `CON_type`. -/
inductive Action where
  | press (k : MKey)
  | release (k : MKey)
  | type (c : ℕ)
  | contype (c : ℕ)
deriving DecidableEq, Repr

/-- `mod_type(c, mod)`: key-down each set modifier flag in source
order, type the literal key, key-up the flags in reverse order. -/
def mod_type (c m : ℕ) : List Action :=
  (if m &&& 1 ≠ 0 then [Action.press MKey.LCTRL] else []) ++
  (if m &&& 2 ≠ 0 then [Action.press MKey.LSHIFT] else []) ++
  (if m &&& 4 ≠ 0 then [Action.press MKey.LALT] else []) ++
  (if m &&& 8 ≠ 0 then [Action.press MKey.LGUI] else []) ++
  (if m &&& 16 ≠ 0 then [Action.press MKey.RCTRL] else []) ++
  (if m &&& 32 ≠ 0 then [Action.press MKey.RSHIFT] else []) ++
  (if m &&& 64 ≠ 0 then [Action.press MKey.RALT] else []) ++
  (if m &&& 128 ≠ 0 then [Action.press MKey.RGUI] else []) ++
  [Action.type c] ++
  (if m &&& 128 ≠ 0 then [Action.release MKey.RGUI] else []) ++
  (if m &&& 64 ≠ 0 then [Action.release MKey.RALT] else []) ++
  (if m &&& 32 ≠ 0 then [Action.release MKey.RSHIFT] else []) ++
  (if m &&& 16 ≠ 0 then [Action.release MKey.RCTRL] else []) ++
  (if m &&& 8 ≠ 0 then [Action.release MKey.LGUI] else []) ++
  (if m &&& 4 ≠ 0 then [Action.release MKey.LALT] else []) ++
  (if m &&& 2 ≠ 0 then [Action.release MKey.LSHIFT] else []) ++
  (if m &&& 1 ≠ 0 then [Action.release MKey.LCTRL] else [])

/-- The `(mod, char)` pair selected by `get_type`'s `switch (ev)` from
a layer's `Chars` record (`NONE` leaves the initial `c = 0`). -/
def bindingOf (ch : Chars) : Event → ℕ × ℕ
  | Event.KEY1 => (ch.mod1, ch.char1)
  | Event.KEY2 => (ch.mod2, ch.char2)
  | Event.KEY3 => (ch.mod3, ch.char3)
  | Event.ENC_SW => (ch.modSW, ch.charSW)
  | Event.ENC_CW => (ch.modCW, ch.charCW)
  | Event.ENC_CCW => (ch.modCCW, ch.charCCW)
  | Event.KEY12 => (ch.mod12, ch.char12)
  | Event.KEY23 => (ch.mod23, ch.char23)
  | Event.KEY13 => (ch.mod13, ch.char13)
  | Event.ENC_SW_CW => (ch.swmodCW, ch.swcharCW)
  | Event.ENC_SW_CCW => (ch.swmodCCW, ch.swcharCCW)
  | Event.NONE => (0, 0)

/-- The tail of `get_type`: `if (c == 0) return;
if (mod == 0xFF) { CON_type(c); return; } mod_type(c, mod);`. -/
def type_binding (m c : ℕ) : List Action :=
  if c = 0 then []
  else if m = 255 then [Action.contype c]
  else mod_type c m

/-- `get_type(ev, n)`: the action sequence one lookup emits
(empty when the binding's character byte is zero). -/
def get_type (chars : ℕ → Chars) (ev : Event) (n : ℕ) : List Action :=
  type_binding (bindingOf (chars n) ev).1 (bindingOf (chars n) ev).2

/-- The sequence list contributed by one `get_type` call: one
key-action sequence when the call emitted anything, none otherwise. -/
def emit_seq (s : List Action) : List (List Action) :=
  if s = [] then [] else [s]

/-- `parse_type(ev)` with the globals `(max_layer, layer)` explicit.
Each `get_type` call that emits anything contributes one key-action
sequence; the result lists the emitted sequences in order.  The
fallback block is `if ((layer == 0) && (max_layer < 3)) {
if (max_layer <= 2) get_type(ev, 1); if (max_layer <= 1)
get_type(ev, 2); if (max_layer <= 0) get_type(ev, 3); }`. -/
def parse_type (chars : ℕ → Chars) (max_layer layer : ℕ) (ev : Event) :
    List (List Action) :=
  emit_seq (get_type chars ev layer) ++
  (if layer = 0 ∧ max_layer < 3 then
    (if max_layer ≤ 2 then emit_seq (get_type chars ev 1) else []) ++
    (if max_layer ≤ 1 then emit_seq (get_type chars ev 2) else []) ++
    (if max_layer ≤ 0 then emit_seq (get_type chars ev 3) else [])
  else [])

/-- The main-loop dispatch of a rotation step while the encoder switch
is NOT held: `if (encoder_dir > 0) parse_type(ENC_CCW);
if (encoder_dir < 0) parse_type(ENC_CW);`. -/
def rot_event_not_held (dir : Int) : Option Event :=
  if dir > 0 then some Event.ENC_CCW
  else if dir < 0 then some Event.ENC_CW
  else none

/-- `encoder_factor`, the 16-entry quadrature step table. -/
def encoder_factor : List Int :=
  [0, 1, -1, 2, -1, 0, -2, 1, 1, -2, 0, -1, 2, -1, 1, 0]

/-- Wrap of a signed value into the `int8_t` range, applied where the
C code stores into `encoder_value`. -/
def wrap8 (x : Int) : Int := (x + 128) % 256 - 128

/-- The quadrature decoder state: `encoder_state` (previous 2-bit
phase) and `encoder_value` (the signed accumulator). -/
structure EncState where
  es : ℕ
  value : Int
deriving DecidableEq, Repr

/-- One poll of the quadrature decoder (main-loop lines
`i = (encoder_state & 3) | (A << 2) | (B << 3); encoder_state = i >> 2;
encoder_value += encoder_factor[i]; encoder_dir = 0;
if (encoder_value >= 4) { encoder_dir = -1; encoder_value -= 4; }
if (encoder_value <= -4) { encoder_dir = 1; encoder_value += 4; }`),
with the two phase pins packed into `phase = A + 2*B`.  Returns the
new state and the emitted `encoder_dir`. -/
def pollStep (s : EncState) (phase : ℕ) : EncState × Int :=
  let i := s.es % 4 + 4 * (phase % 4)
  let es2 := i / 4
  let v := wrap8 (s.value + encoder_factor.getD i 0)
  let p1 : Int × Int := if v ≥ 4 then (wrap8 (v - 4), -1) else (v, 0)
  let p2 : Int × Int := if p1.1 ≤ -4 then (wrap8 (p1.1 + 4), 1) else p1
  (⟨es2, p2.1⟩, p2.2)

/-- Run the poll step over a list of phase samples, collecting the
non-zero direction steps emitted. -/
def runPolls (s : EncState) : List ℕ → EncState × List Int
  | [] => (s, [])
  | p :: ps =>
    let r1 := pollStep s p
    let r2 := runPolls r1.1 ps
    (r2.1, (if r1.2 = 0 then [] else [r1.2]) ++ r2.2)

/-- The phase sequence of one full clockwise-table detent starting
from rest phase 0: each transition has table value `+1`. -/
def cwCycle : List ℕ := [2, 3, 1, 0]

/-- The phase sequence of one full detent in the opposite direction:
each transition has table value `-1`. -/
def ccwCycle : List ℕ := [1, 3, 2, 0]

/-- `n` full detents in the positive-table direction. -/
def cwDetents (n : ℕ) : List ℕ := (List.replicate n cwCycle).flatten

/-- `n` full detents in the negative-table direction. -/
def ccwDetents (n : ℕ) : List ℕ := (List.replicate n ccwCycle).flatten

/-- Expand a list of `(phase, extra)` pairs into a phase sample list in
which each phase is observed `extra + 1` consecutive times (modelling
an arbitrary number of polls seeing each transition). -/
def expandPolls (l : List (ℕ × ℕ)) : List ℕ :=
  (l.map (fun pk => List.replicate (pk.2 + 1) pk.1)).flatten

/-- `hold` as recomputed each main-loop iteration from the three
debounced key states. -/
def hold_of (k1 k2 k3 : Bool) : ℕ :=
  (if k1 then 1 else 0) ||| (if k2 then 2 else 0) ||| (if k3 then 4 else 0)

/-- The `switch (press)` of the main loop: the Event dispatched when
all keys are released with accumulated press mask `press`. -/
def press_event : ℕ → Option Event
  | 1 => some Event.KEY1
  | 2 => some Event.KEY2
  | 4 => some Event.KEY3
  | 3 => some Event.KEY12
  | 5 => some Event.KEY13
  | 6 => some Event.KEY23
  | _ => none

/-- One iteration of the main loop's key/chord section: recompute
`hold`, accumulate `press`, and on full release resolve at most one
Event and clear `press`.  Returns `(hold, press, dispatched event)`. -/
def keyStep (k1 k2 k3 : Bool) (press : ℕ) : ℕ × ℕ × Option Event :=
  let hold := hold_of k1 k2 k3
  let press1 := press ||| hold
  if hold = 0 then (0, 0, press_event press1) else (hold, press1, none)

/-- Startup default substitution for a stored foreground triple:
`if ((r | g | b) == 0) { r = 0xFF; g = 0x16; }`. -/
def decode_fg (c : RGB) : RGB :=
  if c.r ||| c.g ||| c.b = 0 then { c with r := 0xFF, g := 0x16 } else c

/-- Startup default substitution for a stored background triple:
`if ((r | g | b) == 0) { r = 0xC; g = 0x1; }`. -/
def decode_bg (c : RGB) : RGB :=
  if c.r ||| c.g ||| c.b = 0 then { c with r := 0xC, g := 0x1 } else c

/-- Startup substitution for the fade-rate triple: each zero channel
is forced to 1. -/
def decode_fade (c : RGB) : RGB :=
  ⟨if c.r = 0 then 1 else c.r, if c.g = 0 then 1 else c.g,
   if c.b = 0 then 1 else c.b⟩

/-- The built-in default foreground color (all-zero stored foreground
becomes `r = 0xFF, g = 0x16`, blue stays 0). -/
def DEFAULT_FG : RGB := ⟨0xFF, 0x16, 0⟩

/-- The built-in default background color (all-zero stored background
becomes `r = 0xC, g = 0x1`, blue stays 0). -/
def DEFAULT_BG : RGB := ⟨0xC, 0x1, 0⟩

/-- One iteration of the startup decode loop: layer `i` reads bytes
`i*32 .. i*32+31` of the EEPROM in the fixed source order and applies
the default substitutions.  Returns
`(chars_i, neofg_i, neofade_i, neobg_i, max-layer byte)`. -/
def decode_layer (e : ℕ → ℕ) (i : ℕ) : Chars × RGB × RGB × RGB × ℕ :=
  let n := i * 32
  (⟨e n, e (n+1), e (n+2), e (n+3), e (n+4), e (n+5), e (n+6), e (n+7),
    e (n+8), e (n+9), e (n+10), e (n+11),
    e (n+16), e (n+17), e (n+18), e (n+19), e (n+20), e (n+21),
    e (n+22), e (n+23), e (n+27), e (n+31)⟩,
   decode_fg ⟨e (n+12), e (n+13), e (n+14)⟩,
   decode_fade ⟨e (n+24), e (n+25), e (n+26)⟩,
   decode_bg ⟨e (n+28), e (n+29), e (n+30)⟩,
   e (n+15))

/-- The whole startup decode (`for (i = 0; i <= 3; i++)`): the four
per-layer records plus the single global `max_layer`, which every
iteration overwrites. -/
def decode_all (e : ℕ → ℕ) : List (Chars × RGB × RGB × RGB) × ℕ :=
  ([0, 1, 2, 3].foldl
    (fun acc i =>
      let d := decode_layer e i
      (acc.1 ++ [(d.1, d.2.1, d.2.2.1, d.2.2.2.1)], d.2.2.2.2))
    ([], 0))

/-- Modelled from the spec (§4.5): the canonical ordered list of
(modifier flag, modifier key) pairs — left Ctrl, left Shift, left Alt,
left GUI, right Ctrl, right Shift, right Alt, right GUI. -/
def modOrder : List (ℕ × MKey) :=
  [(1, MKey.LCTRL), (2, MKey.LSHIFT), (4, MKey.LALT), (8, MKey.LGUI),
   (16, MKey.RCTRL), (32, MKey.RSHIFT), (64, MKey.RALT), (128, MKey.RGUI)]

/-- Modelled from the spec (§4.5): the modifier keys whose flags are
set in `m`, in the canonical order. -/
def modsOf (m : ℕ) : List MKey :=
  (modOrder.filter (fun pk => m &&& pk.1 ≠ 0)).map Prod.snd

/-- A keymap refuting the layer-0 exactly-one-sequence claim: layer 0
binds KEY1 to character 1 and layer 1 binds KEY1 to character 2. -/
def cexChars : ℕ → Chars := fun n =>
  if n = 0 then { charsZero with char1 := 1 }
  else if n = 1 then { charsZero with char1 := 2 }
  else charsZero

/-! ## Theorems -/

theorem lor_eq_zero (a b : ℕ) : a ||| b = 0 ↔ a = 0 ∧ b = 0 := by
  constructor
  · intro h
    constructor
    · apply Nat.eq_of_testBit_eq
      intro i
      have h2 := congrArg (fun x => Nat.testBit x i) h
      simp [Nat.testBit_lor] at h2
      simp [h2.1, Nat.zero_testBit]
    · apply Nat.eq_of_testBit_eq
      intro i
      have h2 := congrArg (fun x => Nat.testBit x i) h
      simp [Nat.testBit_lor] at h2
      simp [h2.2, Nat.zero_testBit]
  · rintro ⟨rfl, rfl⟩
    rfl

theorem parse_layer_clamp (ml L : ℕ) (dir : Int) (h : 3 < ml) :
    parse_layer ml L dir = parse_layer 3 L dir := by
  unfold parse_layer
  simp [h]

/-- C2 counterexample: with `max_layer = 1`, a rotation step from
layer 0 while the switch is held sets the layer to 3, which is NOT
within `[0, max_layer] = [0, 1]`. -/
theorem C2_counterexample :
    parse_layer 1 0 1 = (1, 3) ∧ ¬((parse_layer 1 0 1).2 ≤ (parse_layer 1 0 1).1) := by
  decide

/-- C2 (amended): every layer transition (`parse_layer` with a
rotation direction or with the idle-timeout `dir = 0`) leaves the
layer within `[0, 3]` absolutely; the stronger bound
`layer ≤ max_layer` holds when the clamped `max_layer` is 0 or 3 (for
`max_layer` 1 or 2 the code jumps to the fixed slots 3 resp. 2/3,
which may exceed `max_layer`). -/
theorem C2_amended (ml L : ℕ) (dir : Int) (hL : L ≤ 3)
    (hd : dir = -1 ∨ dir = 0 ∨ dir = 1) :
    (parse_layer ml L dir).2 ≤ 3 ∧
    ((parse_layer ml L dir).1 = 0 ∨ (parse_layer ml L dir).1 = 3 →
      (parse_layer ml L dir).2 ≤ (parse_layer ml L dir).1) := by
  rcases Nat.lt_or_ge 3 ml with hm | hm
  · rw [parse_layer_clamp ml L dir hm]
    interval_cases L <;> rcases hd with h | h | h <;> subst h <;> decide
  · interval_cases ml <;> interval_cases L <;>
      rcases hd with h | h | h <;> subst h <;> decide

theorem C2_amended_witness :
    (1 : ℕ) ≤ 3 ∧ ((1 : Int) = -1 ∨ (1 : Int) = 0 ∨ (1 : Int) = 1) ∧
    ((parse_layer 1 0 1).2 ≤ 3 ∧
      ((parse_layer 1 0 1).1 = 0 ∨ (parse_layer 1 0 1).1 = 3 →
        (parse_layer 1 0 1).2 ≤ (parse_layer 1 0 1).1)) :=
  ⟨by decide, by decide, C2_amended 1 0 1 (by decide) (by decide)⟩

/-- C3: the fade step at the failing input.  The spec's formula
`max(v - f, b)` predicts `safe_fade 100 2 10 = 98`, but the code's
`if (by < min) return min;` (comparing the fade RATE to the
background, not the decremented VALUE) returns the background 10 and
makes gradual fading impossible whenever the fade rate is below the
background channel.  The claim's own concrete instance (which happens
to avoid the buggy branch's effect) does hold: one step takes 12 to
10 and a further step stays at 10. -/
theorem C3_safe_fade_at_failing_input :
    safe_fade 100 2 10 = 10 ∧ ¬(safe_fade 100 2 10 = 98) ∧
    safe_fade 12 5 10 = 10 ∧ safe_fade 10 5 10 = 10 ∧
    fade_out_pixel ⟨12, 12, 12⟩ ⟨5, 5, 5⟩ ⟨10, 10, 10⟩ = ⟨10, 10, 10⟩ ∧
    fade_out_pixel ⟨10, 10, 10⟩ ⟨5, 5, 5⟩ ⟨10, 10, 10⟩ = ⟨10, 10, 10⟩ := by
  decide

/-- C4 counterexample: a fade step CAN increase a channel — when the
current value is below the layer background (e.g. just after a layer
switch), `safe_fade` returns the background: `safe_fade 5 1 10 = 10 > 5`. -/
theorem C4_counterexample :
    safe_fade 5 1 10 = 10 ∧ ¬(safe_fade 5 1 10 ≤ 5) := by
  decide

/-- C4 (amended): a fade step never increases a channel that is at or
above the layer background: for every `v ≥ b`, `safe_fade v f b ≤ v`
(a channel below background is pulled up to the background). -/
theorem C4_amended (v f b : ℕ) (h : b ≤ v) : safe_fade v f b ≤ v := by
  unfold safe_fade
  dsimp only
  split_ifs <;> omega

theorem C4_amended_witness : (10 : ℕ) ≤ 12 ∧ safe_fade 12 5 10 ≤ 12 :=
  ⟨by decide, C4_amended 12 5 10 (by decide)⟩

/-- C5 counterexample: the direction that dispatches `ENC_CW` when
the encoder is not held is `encoder_dir = -1`; with `max_layer = 2`
that same direction selects layer 3, not layer 2 as claimed (and with
`max_layer = 3`, from layer 1 it steps to 3, not 2). -/
theorem C5_counterexample :
    rot_event_not_held (-1) = some Event.ENC_CW ∧
    (parse_layer 2 0 (-1)).2 = 3 ∧ ¬((parse_layer 2 0 (-1)).2 = 2) ∧
    (parse_layer 3 1 (-1)).2 = 3 ∧ ¬((parse_layer 3 1 (-1)).2 = 2) := by
  decide

/-- C5 (amended): with `max_layer = 1` any held rotation step selects
layer 3 regardless of direction and starting layer; with
`max_layer = 2` the clockwise step (`dir = -1`, the direction that
dispatches `ENC_CW` when not held) selects layer 3 and the
counterclockwise step (`dir = 1`) selects layer 2; with
`max_layer = 3` stepping is cyclic with clockwise decrementing, so
from layer 1 three consecutive clockwise steps visit 3, 2, 1. -/
theorem C5_amended (L : ℕ) (dir : Int) (hL : L ≤ 3)
    (hd : dir = -1 ∨ dir = 1) :
    (parse_layer 1 L dir).2 = 3 ∧
    rot_event_not_held (-1) = some Event.ENC_CW ∧
    rot_event_not_held 1 = some Event.ENC_CCW ∧
    (parse_layer 2 L (-1)).2 = 3 ∧
    (parse_layer 2 L 1).2 = 2 ∧
    (parse_layer 3 1 (-1)).2 = 3 ∧
    (parse_layer 3 3 (-1)).2 = 2 ∧
    (parse_layer 3 2 (-1)).2 = 1 := by
  interval_cases L <;> rcases hd with h | h <;> subst h <;> decide

theorem C5_amended_witness :
    (0 : ℕ) ≤ 3 ∧ ((-1 : Int) = -1 ∨ (-1 : Int) = 1) ∧
    ((parse_layer 1 0 (-1)).2 = 3 ∧
      rot_event_not_held (-1) = some Event.ENC_CW ∧
      rot_event_not_held 1 = some Event.ENC_CCW ∧
      (parse_layer 2 0 (-1)).2 = 3 ∧
      (parse_layer 2 0 1).2 = 2 ∧
      (parse_layer 3 1 (-1)).2 = 3 ∧
      (parse_layer 3 3 (-1)).2 = 2 ∧
      (parse_layer 3 2 (-1)).2 = 1) :=
  ⟨by decide, by decide, C5_amended 0 (-1) (by decide) (by decide)⟩

/-- C7: on full release (`hold = 0`) each non-zero accumulated press
mask resolves to exactly one Event (1, 2, 4 the single keys; 3, 5, 6
the chords), mask 7 resolves to no typed Event, and the press mask is
cleared; holding key1+key2 accumulates mask 3 without dispatching,
and releasing both together then resolves exactly `KEY12`. -/
theorem C7_chord_resolution :
    keyStep false false false 1 = (0, 0, some Event.KEY1) ∧
    keyStep false false false 2 = (0, 0, some Event.KEY2) ∧
    keyStep false false false 4 = (0, 0, some Event.KEY3) ∧
    keyStep false false false 3 = (0, 0, some Event.KEY12) ∧
    keyStep false false false 5 = (0, 0, some Event.KEY13) ∧
    keyStep false false false 6 = (0, 0, some Event.KEY23) ∧
    keyStep false false false 7 = (0, 0, none) ∧
    keyStep true true false 0 = (3, 3, none) ∧
    keyStep false false false (keyStep true true false 0).2.1 =
      (0, 0, some Event.KEY12) := by
  decide

/-- C9: startup decoding replaces an all-zero stored foreground by the
built-in default foreground, an all-zero stored background by the
built-in default background, and forces zero fade-rate channels to 1;
not-all-zero color triples and non-zero fade channels are kept
unchanged, and per-channel independence of the fade substitution is
shown by zeroing only the red channel. -/
theorem C9_decode_defaults (fg bg fa : RGB)
    (hfg : fg.r ≠ 0 ∨ fg.g ≠ 0 ∨ fg.b ≠ 0)
    (hbg : bg.r ≠ 0 ∨ bg.g ≠ 0 ∨ bg.b ≠ 0)
    (hr : fa.r ≠ 0) (hg : fa.g ≠ 0) (hb : fa.b ≠ 0) :
    decode_fg ⟨0, 0, 0⟩ = DEFAULT_FG ∧
    decode_bg ⟨0, 0, 0⟩ = DEFAULT_BG ∧
    decode_fade ⟨0, 0, 0⟩ = ⟨1, 1, 1⟩ ∧
    decode_fg fg = fg ∧
    decode_bg bg = bg ∧
    decode_fade fa = fa ∧
    decode_fade ⟨0, fa.g, fa.b⟩ = ⟨1, fa.g, fa.b⟩ := by
  obtain ⟨fr, fgc, fb⟩ := fg
  obtain ⟨br, bgc, bb⟩ := bg
  obtain ⟨ar, ag, ab⟩ := fa
  dsimp at hfg hbg hr hg hb
  refine ⟨by decide, by decide, by decide, ?_, ?_, ?_, ?_⟩
  · unfold decode_fg
    rw [if_neg]
    dsimp
    simp only [lor_eq_zero]
    tauto
  · unfold decode_bg
    rw [if_neg]
    dsimp
    simp only [lor_eq_zero]
    tauto
  · simp [decode_fade, hr, hg, hb]
  · simp [decode_fade, hg, hb]

theorem C9_decode_defaults_witness :
    ((1 : ℕ) ≠ 0 ∨ (2 : ℕ) ≠ 0 ∨ (3 : ℕ) ≠ 0) ∧
    ((0 : ℕ) ≠ 0 ∨ (0 : ℕ) ≠ 0 ∨ (6 : ℕ) ≠ 0) ∧
    (decode_fg ⟨0, 0, 0⟩ = DEFAULT_FG ∧
      decode_bg ⟨0, 0, 0⟩ = DEFAULT_BG ∧
      decode_fade ⟨0, 0, 0⟩ = ⟨1, 1, 1⟩ ∧
      decode_fg ⟨1, 2, 3⟩ = ⟨1, 2, 3⟩ ∧
      decode_bg ⟨0, 0, 6⟩ = ⟨0, 0, 6⟩ ∧
      decode_fade ⟨7, 8, 9⟩ = ⟨7, 8, 9⟩ ∧
      decode_fade ⟨0, 8, 9⟩ = ⟨1, 8, 9⟩) :=
  ⟨by decide, by decide,
    C9_decode_defaults ⟨1, 2, 3⟩ ⟨0, 0, 6⟩ ⟨7, 8, 9⟩ (by decide) (by decide)
      (by decide) (by decide) (by decide)⟩

/-- C10: after the startup decode loop the effective `max_layer` is
the byte stored at offset 15 of layer 3 (absolute EEPROM address
111), because each of the four iterations overwrites the single
global; and overwriting the max-layer bytes of layers 0, 1, 2
(addresses 15, 47, 79) with arbitrary values changes nothing in the
decoded state. -/
theorem C10_max_layer_byte (e : ℕ → ℕ) (x y z : ℕ) :
    (decode_all e).2 = e 111 ∧
    decode_all
        (Function.update (Function.update (Function.update e 15 x) 47 y) 79 z) =
      decode_all e := by
  constructor
  · rfl
  · simp [decode_all, decode_layer, Function.update]

theorem mod_type_ne_nil (c m : ℕ) : mod_type c m ≠ [] := by
  unfold mod_type
  simp

theorem type_binding_ne_nil (m c : ℕ) (hc : c ≠ 0) : type_binding m c ≠ [] := by
  unfold type_binding
  rw [if_neg hc]
  split_ifs
  · simp
  · exact mod_type_ne_nil c m

theorem type_binding_nil_of_zero (m : ℕ) : type_binding m 0 = [] := by
  unfold type_binding
  simp

/-- C1 counterexample: with `max_layer = 2` and current layer 0, layer
0's KEY1 binding is non-empty (character 1), yet dispatching KEY1
emits TWO key-action sequences, because the layer-0 fallback scans
layer 1 regardless of whether layer 0's own binding is empty. -/
theorem C1_counterexample :
    (bindingOf (cexChars 0) Event.KEY1).2 ≠ 0 ∧
    parse_type cexChars 2 0 Event.KEY1 =
      [[Action.type 1], [Action.type 2]] := by
  decide

/-- C1 (amended): dispatching an Event whose binding at the current
layer `L` is non-empty emits exactly one key-action sequence — the
consumer-control code when the modifier is the all-ones sentinel,
otherwise the modifier-wrapped literal key — provided `L ≥ 1`, or
`L = 0` and every fallback layer the thresholds select
(`max_layer ≤ 2` scans layer 1, `max_layer ≤ 1` also layer 2,
`max_layer ≤ 0` also layer 3) has an empty binding for that Event.
The fallback fires regardless of layer 0's own binding, so its
emptiness — not layer 0's — is what bounds the emission count. -/
theorem C1_amended (chars : ℕ → Chars) (ml L : ℕ) (ev : Event)
    (hc : (bindingOf (chars L) ev).2 ≠ 0)
    (h : 1 ≤ L ∨
      (L = 0 ∧ (ml ≤ 2 → (bindingOf (chars 1) ev).2 = 0)
             ∧ (ml ≤ 1 → (bindingOf (chars 2) ev).2 = 0)
             ∧ (ml ≤ 0 → (bindingOf (chars 3) ev).2 = 0))) :
    parse_type chars ml L ev =
      [type_binding (bindingOf (chars L) ev).1 (bindingOf (chars L) ev).2] := by
  have hne : get_type chars ev L ≠ [] := type_binding_ne_nil _ _ hc
  have hemit : emit_seq (get_type chars ev L) = [get_type chars ev L] := by
    unfold emit_seq
    rw [if_neg hne]
  rcases h with hL | ⟨rfl, h1, h2, h3⟩
  · have hL0 : ¬(L = 0 ∧ ml < 3) := by omega
    unfold parse_type
    rw [if_neg hL0, hemit]
    simp [get_type]
  · by_cases hml : ml < 3
    · have e1 : emit_seq (get_type chars ev 1) = [] := by
        unfold get_type
        rw [h1 (by omega), type_binding_nil_of_zero]
        rfl
      unfold parse_type
      rw [if_pos ⟨rfl, hml⟩, hemit]
      rw [if_pos (by omega : ml ≤ 2), e1]
      by_cases hml1 : ml ≤ 1
      · have e2 : emit_seq (get_type chars ev 2) = [] := by
          unfold get_type
          rw [h2 hml1, type_binding_nil_of_zero]
          rfl
        rw [if_pos hml1, e2]
        by_cases hml0 : ml ≤ 0
        · have e3 : emit_seq (get_type chars ev 3) = [] := by
            unfold get_type
            rw [h3 hml0, type_binding_nil_of_zero]
            rfl
          rw [if_pos hml0, e3]
          simp [get_type]
        · rw [if_neg hml0]
          simp [get_type]
      · rw [if_neg hml1, if_neg (by omega : ¬ml ≤ 0)]
        simp [get_type]
    · have hL0 : ¬((0 : ℕ) = 0 ∧ ml < 3) := by omega
      unfold parse_type
      rw [if_neg hL0, hemit]
      simp [get_type]

theorem C1_amended_witness :
    (bindingOf (cexChars 1) Event.KEY1).2 ≠ 0 ∧
    parse_type cexChars 3 1 Event.KEY1 =
      [type_binding (bindingOf (cexChars 1) Event.KEY1).1
        (bindingOf (cexChars 1) Event.KEY1).2] :=
  ⟨by decide,
    C1_amended cexChars 3 1 Event.KEY1 (by decide) (Or.inl (by decide))⟩

/-- C8: for a non-zero character and a modifier bitmask other than 0
and the 0xFF sentinel, the dispatcher presses exactly the set
modifier flags in the canonical order left Ctrl, left Shift, left
Alt, left GUI, right Ctrl, right Shift, right Alt, right GUI, then
types the literal key, then releases exactly the same modifiers in
reverse order.  (`modsOf` is the spec-side description; `mod_type`
is the source's if-chain.) -/
theorem C8_mod_order (c m : ℕ) (hc : c ≠ 0) (_hm : m < 256)
    (_hm0 : m ≠ 0) (hmF : m ≠ 255) :
    type_binding m c =
      (modsOf m).map Action.press ++ [Action.type c] ++
        ((modsOf m).reverse.map Action.release) := by
  have hseg : ∀ (p : ℕ × MKey → Bool) (f : ℕ × MKey → Action) (a : ℕ × MKey)
      (l : List (ℕ × MKey)),
      ((a :: l).filter p).map f =
        (if p a then [f a] else []) ++ ((l.filter p).map f) := by
    intro p f a l
    by_cases h : p a <;> simp [List.filter_cons, h]
  unfold type_binding
  rw [if_neg hc, if_neg hmF]
  unfold modsOf modOrder mod_type
  simp only [List.map_map, List.map_reverse, hseg, List.filter_nil,
    List.map_nil, List.reverse_nil, List.nil_append, List.append_nil,
    Function.comp, decide_eq_true_eq, List.append_assoc,
    List.reverse_append, List.reverse_cons,
    apply_ite List.reverse]

theorem C8_mod_order_witness :
    (5 : ℕ) ≠ 0 ∧ (3 : ℕ) < 256 ∧ (3 : ℕ) ≠ 0 ∧ (3 : ℕ) ≠ 255 ∧
    type_binding 3 5 =
      (modsOf 3).map Action.press ++ [Action.type 5] ++
        ((modsOf 3).reverse.map Action.release) :=
  ⟨by decide, by decide, by decide, by decide,
    C8_mod_order 5 3 (by decide) (by decide) (by decide) (by decide)⟩

theorem encoder_factor_bound (i : ℕ) :
    -2 ≤ encoder_factor.getD i 0 ∧ encoder_factor.getD i 0 ≤ 2 := by
  rcases Nat.lt_or_ge i 16 with h | h
  · interval_cases i <;> decide
  · rw [List.getD_eq_default]
    · decide
    · simpa [encoder_factor] using h

theorem wrap8_id (x : Int) (h1 : -128 ≤ x) (h2 : x ≤ 127) : wrap8 x = x := by
  unfold wrap8
  omega

theorem pollStep_spec (s : EncState) (p : ℕ) (h3 : -3 ≤ s.value)
    (h4 : s.value ≤ 3) :
    pollStep s p =
      (if s.value + encoder_factor.getD (s.es % 4 + 4 * (p % 4)) 0 ≥ 4 then
        (⟨p % 4, s.value + encoder_factor.getD (s.es % 4 + 4 * (p % 4)) 0 - 4⟩, -1)
      else if s.value + encoder_factor.getD (s.es % 4 + 4 * (p % 4)) 0 ≤ -4 then
        (⟨p % 4, s.value + encoder_factor.getD (s.es % 4 + 4 * (p % 4)) 0 + 4⟩, 1)
      else (⟨p % 4, s.value + encoder_factor.getD (s.es % 4 + 4 * (p % 4)) 0⟩, 0)) := by
  obtain ⟨hfl, hfu⟩ := encoder_factor_bound (s.es % 4 + 4 * (p % 4))
  unfold pollStep
  dsimp only
  have hdiv : (s.es % 4 + 4 * (p % 4)) / 4 = p % 4 := by omega
  have hw : wrap8 (s.value + encoder_factor.getD (s.es % 4 + 4 * (p % 4)) 0) =
      s.value + encoder_factor.getD (s.es % 4 + 4 * (p % 4)) 0 :=
    wrap8_id _ (by omega) (by omega)
  rw [hdiv, hw]
  by_cases hA : s.value + encoder_factor.getD (s.es % 4 + 4 * (p % 4)) 0 ≥ 4
  · rw [if_pos hA, if_pos hA]
    have hw2 : wrap8 (s.value + encoder_factor.getD (s.es % 4 + 4 * (p % 4)) 0 - 4) =
        s.value + encoder_factor.getD (s.es % 4 + 4 * (p % 4)) 0 - 4 :=
      wrap8_id _ (by omega) (by omega)
    rw [hw2]
    rw [if_neg (by omega)]
  · rw [if_neg hA, if_neg hA]
    by_cases hB : s.value + encoder_factor.getD (s.es % 4 + 4 * (p % 4)) 0 ≤ -4
    · rw [if_pos hB, if_pos hB]
      have hw2 : wrap8 (s.value + encoder_factor.getD (s.es % 4 + 4 * (p % 4)) 0 + 4) =
          s.value + encoder_factor.getD (s.es % 4 + 4 * (p % 4)) 0 + 4 :=
        wrap8_id _ (by omega) (by omega)
      rw [hw2]
    · rw [if_neg hB, if_neg hB]

theorem poll_es_eq (s : EncState) (p : ℕ) (h3 : -3 ≤ s.value)
    (h4 : s.value ≤ 3) : ((pollStep s p).1).es = p % 4 := by
  rw [pollStep_spec s p h3 h4]
  split_ifs <;> rfl

theorem poll_value_bound (s : EncState) (p : ℕ) (h3 : -3 ≤ s.value)
    (h4 : s.value ≤ 3) :
    -3 ≤ ((pollStep s p).1).value ∧ ((pollStep s p).1).value ≤ 3 := by
  obtain ⟨hfl, hfu⟩ := encoder_factor_bound (s.es % 4 + 4 * (p % 4))
  rw [pollStep_spec s p h3 h4]
  split_ifs with hA hB <;> dsimp only <;> omega

theorem factor_resample (q : ℕ) (h : q < 4) :
    encoder_factor.getD (q + 4 * q) 0 = 0 := by
  interval_cases q <;> decide

theorem poll_resample (s : EncState) (p : ℕ) (hes : s.es = p % 4)
    (h3 : -3 ≤ s.value) (h4 : s.value ≤ 3) : pollStep s p = (s, 0) := by
  rw [pollStep_spec s p h3 h4]
  rw [hes, Nat.mod_mod_of_dvd]
  · rw [factor_resample (p % 4) (Nat.mod_lt p (by omega))]
    rw [if_neg (by omega), if_neg (by omega)]
    rw [Int.add_zero]
    obtain ⟨es, v⟩ := s
    dsimp at hes ⊢
    rw [hes]
  · exact ⟨1, rfl⟩

theorem runPolls_cons (s : EncState) (q : ℕ) (ps : List ℕ) :
    runPolls s (q :: ps) =
      ((runPolls (pollStep s q).1 ps).1,
        (if (pollStep s q).2 = 0 then [] else [(pollStep s q).2]) ++
          (runPolls (pollStep s q).1 ps).2) := rfl

theorem runPolls_append (s : EncState) (a b : List ℕ) :
    runPolls s (a ++ b) =
      ((runPolls (runPolls s a).1 b).1,
        (runPolls s a).2 ++ (runPolls (runPolls s a).1 b).2) := by
  induction a generalizing s with
  | nil => rfl
  | cons p t ih =>
    rw [List.cons_append, runPolls_cons s p (t ++ b), ih (pollStep s p).1,
      runPolls_cons s p t]
    dsimp only
    simp [List.append_assoc]

theorem runPolls_replicate (k : ℕ) (s : EncState) (p : ℕ) (t : List ℕ)
    (h3 : -3 ≤ s.value) (h4 : s.value ≤ 3) :
    runPolls s (List.replicate (k + 1) p ++ t) = runPolls s (p :: t) := by
  induction k generalizing s with
  | zero => rfl
  | succ k ih =>
    have hb := poll_value_bound s p h3 h4
    have hes := poll_es_eq s p h3 h4
    have hstep : List.replicate (k + 1 + 1) p ++ t =
        p :: (List.replicate (k + 1) p ++ t) := by
      simp [List.replicate_succ]
    rw [hstep, runPolls_cons s p (List.replicate (k + 1) p ++ t),
      ih (pollStep s p).1 hb.1 hb.2,
      runPolls_cons (pollStep s p).1 p t,
      poll_resample (pollStep s p).1 p hes hb.1 hb.2,
      runPolls_cons s p t]
    simp

theorem runPolls_expand (l : List (ℕ × ℕ)) (s : EncState)
    (h3 : -3 ≤ s.value) (h4 : s.value ≤ 3) :
    runPolls s (expandPolls l) = runPolls s (l.map Prod.fst) := by
  induction l generalizing s with
  | nil => rfl
  | cons pk t ih =>
    have hexp : expandPolls (pk :: t) =
        List.replicate (pk.2 + 1) pk.1 ++ expandPolls t := by
      simp [expandPolls]
    have hb := poll_value_bound s pk.1 h3 h4
    rw [hexp, runPolls_replicate pk.2 s pk.1 (expandPolls t) h3 h4,
      runPolls_cons s pk.1 (expandPolls t),
      ih (pollStep s pk.1).1 hb.1 hb.2,
      List.map_cons, runPolls_cons s pk.1 (t.map Prod.fst)]


theorem runPolls_cwCycle (v : Int) (h0 : 0 ≤ v) (h3 : v ≤ 3) :
    runPolls ⟨0, v⟩ cwCycle = (⟨0, v⟩, [-1]) := by
  interval_cases v <;> decide

theorem runPolls_ccwCycle (v : Int) (h0 : -3 ≤ v) (h3 : v ≤ 0) :
    runPolls ⟨0, v⟩ ccwCycle = (⟨0, v⟩, [1]) := by
  interval_cases v <;> decide

theorem runPolls_cwDetents (n : ℕ) (v : Int) (h0 : 0 ≤ v) (h3 : v ≤ 3) :
    runPolls ⟨0, v⟩ (cwDetents n) = (⟨0, v⟩, List.replicate n (-1)) := by
  induction n with
  | zero => simp [cwDetents, runPolls]
  | succ n ih =>
    have hsplit : cwDetents (n + 1) = cwCycle ++ cwDetents n := by
      simp [cwDetents, List.replicate_succ]
    rw [hsplit, runPolls_append, runPolls_cwCycle v h0 h3]
    dsimp only
    rw [ih]
    simp [List.replicate_succ]

theorem runPolls_ccwDetents (n : ℕ) (v : Int) (h0 : -3 ≤ v) (h3 : v ≤ 0) :
    runPolls ⟨0, v⟩ (ccwDetents n) = (⟨0, v⟩, List.replicate n 1) := by
  induction n with
  | zero => simp [ccwDetents, runPolls]
  | succ n ih =>
    have hsplit : ccwDetents (n + 1) = ccwCycle ++ ccwDetents n := by
      simp [ccwDetents, List.replicate_succ]
    rw [hsplit, runPolls_append, runPolls_ccwCycle v h0 h3]
    dsimp only
    rw [ih]
    simp [List.replicate_succ]

/-- C6: the quadrature poll adds the table entry indexed by the packed
(previous state, current phase) pair, emits exactly one direction step
when the accumulator reaches +4 or -4 while subtracting/adding 4
(overshoot preserved in the state threaded through `runPolls`), and a
re-sampled unchanged phase adds 0 (`poll_resample`); consequently any
poll sequence equivalent to `n` full detents in one direction — the
detent cycle with each transition observed an arbitrary positive
number of times — emits exactly `n` steps of that direction and
returns the accumulator to its starting value. -/
theorem C6_quadrature_detents (n : ℕ) (v w : Int) (lcw lccw : List (ℕ × ℕ))
    (hcw : lcw.map Prod.fst = cwDetents n)
    (hccw : lccw.map Prod.fst = ccwDetents n)
    (hv0 : 0 ≤ v) (hv3 : v ≤ 3) (hw0 : -3 ≤ w) (hw3 : w ≤ 0) :
    runPolls ⟨0, v⟩ (expandPolls lcw) = (⟨0, v⟩, List.replicate n (-1)) ∧
    runPolls ⟨0, w⟩ (expandPolls lccw) = (⟨0, w⟩, List.replicate n 1) := by
  constructor
  · rw [runPolls_expand lcw ⟨0, v⟩ (by dsimp; omega) (by dsimp; omega), hcw]
    exact runPolls_cwDetents n v hv0 hv3
  · rw [runPolls_expand lccw ⟨0, w⟩ (by dsimp; omega) (by dsimp; omega), hccw]
    exact runPolls_ccwDetents n w hw0 hw3

theorem C6_quadrature_detents_witness :
    ([((2 : ℕ), (0 : ℕ)), (3, 2), (1, 0), (0, 1), (2, 0), (3, 0), (1, 3),
        (0, 0)].map Prod.fst = cwDetents 2) ∧
    ([((1 : ℕ), (1 : ℕ)), (3, 0), (2, 0), (0, 2), (1, 0), (3, 4), (2, 0),
        (0, 0)].map Prod.fst = ccwDetents 2) ∧
    (runPolls ⟨0, 1⟩
        (expandPolls [((2 : ℕ), (0 : ℕ)), (3, 2), (1, 0), (0, 1), (2, 0),
          (3, 0), (1, 3), (0, 0)]) = (⟨0, 1⟩, List.replicate 2 (-1)) ∧
      runPolls ⟨0, 0⟩
        (expandPolls [((1 : ℕ), (1 : ℕ)), (3, 0), (2, 0), (0, 2), (1, 0),
          (3, 4), (2, 0), (0, 0)]) = (⟨0, 0⟩, List.replicate 2 1)) :=
  ⟨by decide, by decide,
    C6_quadrature_detents 2 1 0
      [((2 : ℕ), (0 : ℕ)), (3, 2), (1, 0), (0, 1), (2, 0), (3, 0), (1, 3),
        (0, 0)]
      [((1 : ℕ), (1 : ℕ)), (3, 0), (2, 0), (0, 2), (1, 0), (3, 4), (2, 0),
        (0, 0)]
      (by decide) (by decide) (by decide) (by decide) (by decide) (by decide)⟩

end MacroPad
